import Mathlib

/-!
Verification development for the Bayesian-layer module
(src/model/bayesian_layers.py of le-big-mac/VCL_Diffusion).

Shallow embedding conventions:
* scalars are exact rationals (ℚ); the transcendental maps exp and sqrt
  of the host numeric library are passed in as explicit function
  parameters (e resp. sq), since every claim of interest is independent
  of their pointwise values;
* tensors are nested lists: a batch of vectors is a list of rows, a
  batch of images is a list of channel-row-column nestings;
* the per-element Gaussian noise consumed by torch.randn_like is passed
  in explicitly as a family of noise tensors indexed by the vmap group
  index (randomness equals different draws per group, fresh per call);
* fallible tensor operations (reshape with -1, which requires the
  leading dimension to be divisible by the sample count) return Option;
* the in-place running-statistics mutation of BatchNorm2d is modelled
  by state passing: its forward returns the post-call layer state
  together with the optional output.
-/

abbrev Vec := List ℚ

abbrev Mat := List Vec

abbrev T3 := List Mat

abbrev T4 := List T3

/-- Three-argument zipWith, used for the elementwise reparameterization
mean + exp(0.5 * logvar) * eps. -/
def zw3 (f : α → β → γ → δ) : List α → List β → List γ → List δ
  | a :: as, b :: bs, c :: cs => f a b c :: zw3 f as bs cs
  | _, _, _ => []

/-- Reparameterized sample of a vector of parameters:
mean + exp(0.5 * logvar) * eps, elementwise (e models exp). -/
def sampleV (e : ℚ → ℚ) (mean logvar eps : Vec) : Vec :=
  zw3 (fun m l n => m + e (l / 2) * n) mean logvar eps

/-- Reparameterized sample of a matrix of parameters. -/
def sampleM (e : ℚ → ℚ) (mean logvar eps : Mat) : Mat :=
  zw3 (sampleV e) mean logvar eps

/-- Reparameterized sample of a rank-3 tensor of parameters. -/
def sampleT3 (e : ℚ → ℚ) (mean logvar eps : T3) : T3 :=
  zw3 (sampleM e) mean logvar eps

/-- Reparameterized sample of a rank-4 tensor of parameters. -/
def sampleT4 (e : ℚ → ℚ) (mean logvar eps : T4) : T4 :=
  zw3 (sampleT3 e) mean logvar eps

/-- Dot product of two vectors. -/
def dot (u v : Vec) : ℚ := (List.zipWith (fun a b => a * b) u v).sum

/-- Embedding of F.linear: y = x Wᵀ + b, acting row-wise on the batch x.
The bias is optional, as in the source. -/
def flinear (x : Mat) (W : Mat) (b : Option Vec) : Mat :=
  x.map (fun row =>
    match b with
    | none => W.map (fun wrow => dot wrow row)
    | some bv => List.zipWith (fun wrow bi => dot wrow row + bi) W bv)

/-- Splitting of a list into S contiguous chunks of k elements each,
the embedding of x.reshape(S, -1, rest) on the leading dimension
(meaningful when the length is S * k). -/
def chunkS : ℕ → ℕ → List α → List (List α)
  | 0, _, _ => []
  | s + 1, k, xs => xs.take k :: chunkS s k (xs.drop k)

/-- Map over the leading axis with the group index available, the
embedding of torch.vmap with randomness equal to different: slice g of
the leading axis is evaluated with its own noise, selected through the
index g. -/
def vmapIdx (op : ℕ → α → β) : List α → List β
  | [] => []
  | a :: l => op 0 a :: vmapIdx (fun i => op (i + 1)) l

/-- Shared stochastic-path combinator of all four layers, the embedding
of reshape(S, -1, rest); vmap(param_sample, randomness different);
reshape(-1, rest). The reshape with -1 fails unless the leading
dimension N is divisible by S (with S positive), hence the Option. -/
def stochForward (op : ℕ → List α → List β) (S : ℕ) (x : List α) : Option (List β) :=
  if 0 < S ∧ S ∣ x.length then
    some (List.flatten (vmapIdx op (chunkS S (x.length / S) x)))
  else none

/-- Modelled from the spec: the naive sequential reference of §4.1 and
§5 — partition the input into S contiguous groups of N/S rows in order,
evaluate each group with its own parameter draw, and concatenate the
group outputs along the leading dimension in original group order. -/
def naiveSeqForward (op : ℕ → List α → List β) (S : ℕ) (x : List α) : List β :=
  List.flatten ((List.range S).map (fun g =>
    op g ((x.drop (g * (x.length / S))).take (x.length / S))))

section ChunkLemmas

/-- chunkS with index-aware mapping agrees with explicit drop/take
slicing when the length is exactly S * k. -/
theorem vmapIdx_chunkS (S : ℕ) :
    ∀ (k : ℕ) (x : List α) (op : ℕ → List α → List β), x.length = S * k →
      vmapIdx op (chunkS S k x) =
        (List.range S).map (fun g => op g ((x.drop (g * k)).take k)) := by
  induction S with
  | zero => intro k x op h; simp [chunkS, vmapIdx]
  | succ s ih =>
    intro k x op h
    have hlen : (x.drop k).length = s * k := by
      simp [List.length_drop, h, Nat.succ_mul]
    have htail := ih k (x.drop k) (fun i => op (i + 1)) hlen
    simp only [chunkS, vmapIdx, htail, List.range_succ_eq_map, List.map_cons,
      List.map_map]
    congr 1
    · simp
    · apply List.map_congr_left
      intro g _
      have hdd : (x.drop k).drop (g * k) = x.drop ((g + 1) * k) := by
        rw [List.drop_drop]
        ring_nf
      simp [Function.comp, hdd, Nat.add_mul, Nat.add_comm]

/-- Refinement core: the vectorized reshape-vmap-reshape combinator
agrees with the naive sequential reference whenever the leading
dimension is divisible by the positive sample count. -/
theorem stochForward_eq_naive (op : ℕ → List α → List β) (S : ℕ) (x : List α)
    (hS : 0 < S) (hdvd : S ∣ x.length) :
    stochForward op S x = some (naiveSeqForward op S x) := by
  have hx : x.length = S * (x.length / S) := (Nat.mul_div_cancel' hdvd).symm
  rw [stochForward, if_pos ⟨hS, hdvd⟩, naiveSeqForward,
    vmapIdx_chunkS S (x.length / S) x op hx]

/-- Length of the vectorized combinator's output: when every per-group
operation preserves the group length, the flattened output has the
length of the input. -/
theorem vmapIdx_chunkS_flatten_length (S : ℕ) :
    ∀ (k : ℕ) (x : List α) (op : ℕ → List α → List β),
      (∀ g grp, (op g grp).length = grp.length) → x.length = S * k →
      (List.flatten (vmapIdx op (chunkS S k x))).length = x.length := by
  induction S with
  | zero => intro k x op _ h; simp [chunkS, vmapIdx, h]
  | succ s ih =>
    intro k x op hop h
    have hlen : (x.drop k).length = s * k := by
      simp [List.length_drop, h, Nat.succ_mul]
    have htail := ih k (x.drop k) (fun i => op (i + 1)) (fun g grp => hop (g + 1) grp) hlen
    have hsplit : (x.take k).length + (x.drop k).length = x.length := by
      rw [← List.length_append, List.take_append_drop]
    simp only [chunkS, vmapIdx, List.flatten_cons, List.length_append, htail,
      hop 0 (x.take k)]
    omega

end ChunkLemmas

/-! Dense layer: embedding of class Linear of the source. The random
kaiming-uniform initial weight draw is external randomness, passed in
as w0; constant initializations follow reset_parameters. -/

structure LinearLayer where
  mle : Bool
  in_features : ℕ
  out_features : ℕ
  weight_mean : Mat
  weight_logvar : Mat
  bias_mean : Option Vec
  bias_logvar : Option Vec
  logvar_init : ℚ

/-- Embedding of Linear.__init__ followed by reset_parameters. -/
def LinearLayer.init (in_features out_features : ℕ) (bias mle : Bool)
    (logvar_init : ℚ) (w0 : Mat) : LinearLayer :=
  { mle := mle
    in_features := in_features
    out_features := out_features
    weight_mean := w0
    weight_logvar := List.replicate out_features (List.replicate in_features logvar_init)
    bias_mean := if bias then some (List.replicate out_features 0) else none
    bias_logvar := if bias then some (List.replicate out_features logvar_init) else none
    logvar_init := logvar_init }

/-- Bias sampling inside param_sample: None stays None, otherwise the
reparameterized draw of the bias vector. -/
def LinearLayer.sampleBias (e : ℚ → ℚ) (L : LinearLayer) (epsb : Vec) : Option Vec :=
  match L.bias_mean with
  | none => none
  | some bm => some (sampleV e bm (L.bias_logvar.getD []) epsb)

/-- Embedding of Linear.forward: mle path uses the means directly; the
stochastic path reshapes into S groups, vmaps param_sample with fresh
per-group noise, and flattens back. -/
def LinearLayer.forward (e : ℚ → ℚ) (L : LinearLayer) (epsW : ℕ → Mat) (epsb : ℕ → Vec)
    (x : Mat) (S : ℕ) : Option Mat :=
  if L.mle then some (flinear x L.weight_mean L.bias_mean)
  else
    stochForward (fun g grp =>
      flinear grp (sampleM e L.weight_mean L.weight_logvar (epsW g))
        (LinearLayer.sampleBias e L (epsb g))) S x

/-- Modelled from the spec: the naive sequential reference for the
Dense layer — slice the batch into S contiguous groups in order, draw
weight and bias per group, apply the affine map, concatenate. -/
def LinearLayer.naiveForward (e : ℚ → ℚ) (L : LinearLayer) (epsW : ℕ → Mat) (epsb : ℕ → Vec)
    (x : Mat) (S : ℕ) : Mat :=
  naiveSeqForward (fun g grp =>
    flinear grp (sampleM e L.weight_mean L.weight_logvar (epsW g))
      (LinearLayer.sampleBias e L (epsb g))) S x

/-! Convolution layers: embeddings of classes Conv2d and
ConvTranspose2d. Images are channel-row-column nestings; the spatial
index arithmetic of the two kernels follows the standard stride and
zero-padding semantics of the host library. -/

/-- Pixel read with zero for every out-of-range index (covers the
implicit zero padding of the convolution). -/
def at3i (t : T3) (c : ℕ) (i j : ℤ) : ℚ :=
  if 0 ≤ i ∧ 0 ≤ j then ((t.getD c []).getD i.toNat []).getD j.toNat 0 else 0

/-- Element read of a rank-4 weight tensor. -/
def at4 (t : T4) (a b c d : ℕ) : ℚ :=
  (((t.getD a []).getD b []).getD c []).getD d 0

/-- Embedding of F.conv2d on one image: output channel co at spatial
position (i, j) accumulates weight[co][ci][a][b] times the padded input
pixel at (i * stride + a - padding, j * stride + b - padding). -/
def conv2dImage (W : T4) (b : Option Vec) (stride padding k : ℕ) (img : T3) : T3 :=
  let H := (img.getD 0 []).length
  let Wd := ((img.getD 0 []).getD 0 []).length
  let outH := (H + 2 * padding - k) / stride + 1
  let outW := (Wd + 2 * padding - k) / stride + 1
  (List.range W.length).map (fun co =>
    (List.range outH).map (fun i =>
      (List.range outW).map (fun j =>
        (match b with | none => 0 | some bv => bv.getD co 0) +
        ((List.range (W.getD co []).length).map (fun ci =>
          ((List.range k).map (fun a =>
            ((List.range k).map (fun bb =>
              at3i img ci ((i * stride + a : ℕ) - (padding : ℤ))
                ((j * stride + bb : ℕ) - (padding : ℤ)) * at4 W co ci a bb)).sum)).sum)).sum)))

/-- Embedding of F.conv_transpose2d on one image: output channel co at
(i, j) accumulates input pixel (p, q) times weight[ci][co][a][b] where
a = i + padding - p * stride and b = j + padding - q * stride land
inside the kernel. -/
def convT2dImage (W : T4) (b : Option Vec) (stride padding k out_channels : ℕ)
    (img : T3) : T3 :=
  let H := (img.getD 0 []).length
  let Wd := ((img.getD 0 []).getD 0 []).length
  let outH := (H - 1) * stride + k - 2 * padding
  let outW := (Wd - 1) * stride + k - 2 * padding
  (List.range out_channels).map (fun co =>
    (List.range outH).map (fun i =>
      (List.range outW).map (fun j =>
        (match b with | none => 0 | some bv => bv.getD co 0) +
        ((List.range img.length).map (fun ci =>
          ((List.range H).map (fun p =>
            ((List.range Wd).map (fun q =>
              let a : ℤ := (i : ℤ) + padding - p * stride
              let bb : ℤ := (j : ℤ) + padding - q * stride
              if 0 ≤ a ∧ a < k ∧ 0 ≤ bb ∧ bb < k then
                at3i img ci p q * at4 W ci co a.toNat bb.toNat
              else 0)).sum)).sum)).sum)))

structure Conv2dLayer where
  mle : Bool
  in_channels : ℕ
  out_channels : ℕ
  kernel_size : ℕ
  stride : ℕ
  padding : ℕ
  weight_mean : T4
  weight_logvar : T4
  bias_mean : Option Vec
  bias_logvar : Option Vec
  logvar_init : ℚ

/-- Embedding of Conv2d.__init__ followed by reset_parameters. -/
def Conv2dLayer.init (in_channels out_channels kernel_size stride padding : ℕ)
    (bias mle : Bool) (logvar_init : ℚ) (w0 : T4) : Conv2dLayer :=
  { mle := mle
    in_channels := in_channels
    out_channels := out_channels
    kernel_size := kernel_size
    stride := stride
    padding := padding
    weight_mean := w0
    weight_logvar := List.replicate out_channels (List.replicate in_channels
      (List.replicate kernel_size (List.replicate kernel_size logvar_init)))
    bias_mean := if bias then some (List.replicate out_channels 0) else none
    bias_logvar := if bias then some (List.replicate out_channels logvar_init) else none
    logvar_init := logvar_init }

/-- Bias sampling inside Conv2d's param_sample. -/
def Conv2dLayer.sampleBias (e : ℚ → ℚ) (L : Conv2dLayer) (epsb : Vec) : Option Vec :=
  match L.bias_mean with
  | none => none
  | some bm => some (sampleV e bm (L.bias_logvar.getD []) epsb)

/-- Embedding of Conv2d.forward. -/
def Conv2dLayer.forward (e : ℚ → ℚ) (L : Conv2dLayer) (epsW : ℕ → T4) (epsb : ℕ → Vec)
    (x : T4) (S : ℕ) : Option T4 :=
  if L.mle then
    some (x.map (conv2dImage L.weight_mean L.bias_mean L.stride L.padding L.kernel_size))
  else
    stochForward (fun g grp =>
      grp.map (conv2dImage (sampleT4 e L.weight_mean L.weight_logvar (epsW g))
        (Conv2dLayer.sampleBias e L (epsb g)) L.stride L.padding L.kernel_size)) S x

/-- Modelled from the spec: the naive sequential reference for the
convolution layer. -/
def Conv2dLayer.naiveForward (e : ℚ → ℚ) (L : Conv2dLayer) (epsW : ℕ → T4) (epsb : ℕ → Vec)
    (x : T4) (S : ℕ) : T4 :=
  naiveSeqForward (fun g grp =>
    grp.map (conv2dImage (sampleT4 e L.weight_mean L.weight_logvar (epsW g))
      (Conv2dLayer.sampleBias e L (epsb g)) L.stride L.padding L.kernel_size)) S x

structure ConvT2dLayer where
  mle : Bool
  in_channels : ℕ
  out_channels : ℕ
  kernel_size : ℕ
  stride : ℕ
  padding : ℕ
  weight_mean : T4
  weight_logvar : T4
  bias_mean : Option Vec
  bias_logvar : Option Vec
  logvar_init : ℚ

/-- Embedding of ConvTranspose2d.__init__ followed by reset_parameters
(note the transposed weight layout in-channels first). -/
def ConvT2dLayer.init (in_channels out_channels kernel_size stride padding : ℕ)
    (bias mle : Bool) (logvar_init : ℚ) (w0 : T4) : ConvT2dLayer :=
  { mle := mle
    in_channels := in_channels
    out_channels := out_channels
    kernel_size := kernel_size
    stride := stride
    padding := padding
    weight_mean := w0
    weight_logvar := List.replicate in_channels (List.replicate out_channels
      (List.replicate kernel_size (List.replicate kernel_size logvar_init)))
    bias_mean := if bias then some (List.replicate out_channels 0) else none
    bias_logvar := if bias then some (List.replicate out_channels logvar_init) else none
    logvar_init := logvar_init }

/-- Bias sampling inside ConvTranspose2d's param_sample. -/
def ConvT2dLayer.sampleBias (e : ℚ → ℚ) (L : ConvT2dLayer) (epsb : Vec) : Option Vec :=
  match L.bias_mean with
  | none => none
  | some bm => some (sampleV e bm (L.bias_logvar.getD []) epsb)

/-- Embedding of ConvTranspose2d.forward. -/
def ConvT2dLayer.forward (e : ℚ → ℚ) (L : ConvT2dLayer) (epsW : ℕ → T4) (epsb : ℕ → Vec)
    (x : T4) (S : ℕ) : Option T4 :=
  if L.mle then
    some (x.map (convT2dImage L.weight_mean L.bias_mean L.stride L.padding
      L.kernel_size L.out_channels))
  else
    stochForward (fun g grp =>
      grp.map (convT2dImage (sampleT4 e L.weight_mean L.weight_logvar (epsW g))
        (ConvT2dLayer.sampleBias e L (epsb g)) L.stride L.padding
        L.kernel_size L.out_channels)) S x

/-- Modelled from the spec: the naive sequential reference for the
transposed-convolution layer. -/
def ConvT2dLayer.naiveForward (e : ℚ → ℚ) (L : ConvT2dLayer) (epsW : ℕ → T4) (epsb : ℕ → Vec)
    (x : T4) (S : ℕ) : T4 :=
  naiveSeqForward (fun g grp =>
    grp.map (convT2dImage (sampleT4 e L.weight_mean L.weight_logvar (epsW g))
      (ConvT2dLayer.sampleBias e L (epsb g)) L.stride L.padding
      L.kernel_size L.out_channels)) S x

/-! Normalization layer: embedding of class BatchNorm2d. The in-place
update of the running-statistics buffers is state passing here: forward
returns the post-call layer record next to the optional output. -/

/-- Fixed momentum of the running-statistics moving average (0.1). -/
def bnMomentum : ℚ := 1 / 10

/-- Fixed numerical-stability constant eps (1e-5). -/
def bnEps : ℚ := 1 / 100000

structure BatchNorm2dLayer where
  mle : Bool
  num_features : ℕ
  weight_mean : Vec
  weight_logvar : Vec
  bias_mean : Vec
  bias_logvar : Vec
  logvar_init : ℚ
  running_mean : Vec
  running_var : Vec

/-- Embedding of BatchNorm2d.__init__ followed by reset_parameters:
weights one, biases zero, logvars at the init constant, running mean
zero, running variance one. -/
def BatchNorm2dLayer.init (num_features : ℕ) (mle : Bool) (logvar_init : ℚ) :
    BatchNorm2dLayer :=
  { mle := mle
    num_features := num_features
    weight_mean := List.replicate num_features 1
    weight_logvar := List.replicate num_features logvar_init
    bias_mean := List.replicate num_features 0
    bias_logvar := List.replicate num_features logvar_init
    logvar_init := logvar_init
    running_mean := List.replicate num_features 0
    running_var := List.replicate num_features 1 }

/-- Every element of channel c across the batch and both spatial
dimensions, the population over which x.mean([0,2,3]) and
x.var([0,2,3]) aggregate. -/
def channelElems (x : T4) (c : ℕ) : Vec :=
  (x.map (fun img => (img.getD c []).flatten)).flatten

/-- Per-channel batch mean, embedding of x.mean([0,2,3]) at channel c. -/
def chMean (x : T4) (c : ℕ) : ℚ :=
  (channelElems x c).sum / ((channelElems x c).length : ℚ)

/-- Per-channel unbiased batch variance, embedding of
x.var([0,2,3], unbiased=True) at channel c. -/
def chVar (x : T4) (c : ℕ) : ℚ :=
  ((channelElems x c).map (fun v => (v - chMean x c) ^ 2)).sum /
    (((channelElems x c).length : ℚ) - 1)

/-- Channel count of a batch of images. -/
def chCount (x : T4) : ℕ := (x.getD 0 []).length

/-- Vector of per-channel batch means. -/
def chMeanVec (x : T4) : Vec := (List.range (chCount x)).map (chMean x)

/-- Vector of per-channel unbiased batch variances. -/
def chVarVec (x : T4) : Vec := (List.range (chCount x)).map (chVar x)

/-- Embedding of the two running-statistics update lines of training
mode: running = (1 - momentum) * running + momentum * batch_stat. -/
def BatchNorm2dLayer.updateStats (L : BatchNorm2dLayer) (x : T4) : BatchNorm2dLayer :=
  { L with
    running_mean := List.zipWith
      (fun r b => (1 - bnMomentum) * r + bnMomentum * b) L.running_mean (chMeanVec x)
    running_var := List.zipWith
      (fun r b => (1 - bnMomentum) * r + bnMomentum * b) L.running_var (chVarVec x) }

/-- Embedding of tensor.reshape(1, 3, 1, 1) on a per-channel vector:
succeeds exactly when the vector holds 3 elements (the hardcoded
channel count of the source), and then carries the same 3 values. -/
def reshape1311 (v : Vec) : Option Vec :=
  if v.length = 3 then some v else none

/-- Conjunction of the six per-channel reshapes of the forward body. -/
def BatchNorm2dLayer.reshapesOk (L : BatchNorm2dLayer) : Bool :=
  (reshape1311 L.running_mean).isSome && (reshape1311 L.running_var).isSome &&
  (reshape1311 L.weight_mean).isSome && (reshape1311 L.weight_logvar).isSome &&
  (reshape1311 L.bias_mean).isSome && (reshape1311 L.bias_logvar).isSome

/-- Per-channel standardization and affine map on one image:
(x - running_mean) / sqrt(running_var + eps) * weight + bias, with sq
modelling sqrt and all four per-channel vectors broadcast over the
spatial dimensions. -/
def bnImage (sq : ℚ → ℚ) (rm rv w b : Vec) (img : T3) : T3 :=
  vmapIdx (fun c ch => ch.map (fun row => row.map (fun v =>
    (v - rm.getD c 0) / sq (rv.getD c 0 + bnEps) * w.getD c 0 + b.getD c 0))) img

/-- Embedding of BatchNorm2d.forward: in training mode the running
statistics are updated first; the six reshapes then gate the rest; the
mle path standardizes with the mean affine parameters; the stochastic
path runs the shared combinator with per-group draws of weight and
bias, standardizing every group with the same (possibly just-updated)
running statistics. -/
def BatchNorm2dLayer.forward (e sq : ℚ → ℚ) (L : BatchNorm2dLayer) (training : Bool)
    (epsw epsb : ℕ → Vec) (x : T4) (S : ℕ) : BatchNorm2dLayer × Option T4 :=
  let L2 := if training then L.updateStats x else L
  if L2.reshapesOk then
    if L2.mle then
      (L2, some (x.map (bnImage sq L2.running_mean L2.running_var
        L2.weight_mean L2.bias_mean)))
    else
      (L2, stochForward (fun g grp =>
        grp.map (bnImage sq L2.running_mean L2.running_var
          (sampleV e L2.weight_mean L2.weight_logvar (epsw g))
          (sampleV e L2.bias_mean L2.bias_logvar (epsb g)))) S x)
  else (L2, none)

/-- Modelled from the spec: the naive sequential reference for the
Normalization layer, acting on a given (already updated) layer state:
per group draw scale and shift, standardize with the shared running
statistics, concatenate. -/
def BatchNorm2dLayer.naiveForward (e sq : ℚ → ℚ) (L : BatchNorm2dLayer)
    (epsw epsb : ℕ → Vec) (x : T4) (S : ℕ) : T4 :=
  naiveSeqForward (fun g grp =>
    grp.map (bnImage sq L.running_mean L.running_var
      (sampleV e L.weight_mean L.weight_logvar (epsw g))
      (sampleV e L.bias_mean L.bias_logvar (epsb g)))) S x

/-- Well-formedness of a BatchNorm2d state: every per-channel vector
has the configured feature count (true at construction and preserved by
well-shaped calls). -/
def BatchNorm2dLayer.WF (L : BatchNorm2dLayer) : Prop :=
  L.weight_mean.length = L.num_features ∧ L.weight_logvar.length = L.num_features ∧
  L.bias_mean.length = L.num_features ∧ L.bias_logvar.length = L.num_features ∧
  L.running_mean.length = L.num_features ∧ L.running_var.length = L.num_features

instance (L : BatchNorm2dLayer) : Decidable L.WF := by
  unfold BatchNorm2dLayer.WF; infer_instance

/-! Construction signatures. Linear, Conv2d and ConvTranspose2d take a
bias flag among their construction parameters; BatchNorm2d.__init__
takes only num_features, mle and logvar_init. -/

inductive LayerKind where
  | dense
  | conv
  | transposedConv
  | norm
deriving DecidableEq

/-- Whether the construction signature of a layer class carries a
bias-enable flag, read off the four __init__ signatures of the
source. -/
def hasBiasFlag : LayerKind → Bool
  | .dense => true
  | .conv => true
  | .transposedConv => true
  | .norm => false

section HelperLemmas

theorem updateStats_mle (L : BatchNorm2dLayer) (x : T4) :
    (L.updateStats x).mle = L.mle := rfl

theorem updateStats_weight_mean (L : BatchNorm2dLayer) (x : T4) :
    (L.updateStats x).weight_mean = L.weight_mean := rfl

theorem isSome_reshape1311 (v : Vec) :
    (reshape1311 v).isSome = true ↔ v.length = 3 := by
  unfold reshape1311
  split <;> simp_all

theorem reshapesOk_iff (L : BatchNorm2dLayer) :
    L.reshapesOk = true ↔
      L.running_mean.length = 3 ∧ L.running_var.length = 3 ∧
      L.weight_mean.length = 3 ∧ L.weight_logvar.length = 3 ∧
      L.bias_mean.length = 3 ∧ L.bias_logvar.length = 3 := by
  simp [BatchNorm2dLayer.reshapesOk, Bool.and_eq_true, isSome_reshape1311, and_assoc]

/-- First component of BatchNorm2d.forward: the state effect is exactly
the training-gated running-statistics update, on every call, successful
or not. -/
theorem bnForward_fst (e sq : ℚ → ℚ) (L : BatchNorm2dLayer) (training : Bool)
    (epsw epsb : ℕ → Vec) (x : T4) (S : ℕ) :
    (BatchNorm2dLayer.forward e sq L training epsw epsb x S).1 =
      if training then L.updateStats x else L := by
  unfold BatchNorm2dLayer.forward
  split
  all_goals
    dsimp only
    split
    · split <;> rfl
    · rfl

/-- Second component of BatchNorm2d.forward, with the pair projection
pushed under the branching. -/
theorem bnForward_snd (e sq : ℚ → ℚ) (L : BatchNorm2dLayer) (training : Bool)
    (epsw epsb : ℕ → Vec) (x : T4) (S : ℕ) :
    (BatchNorm2dLayer.forward e sq L training epsw epsb x S).2 =
      if (if training then L.updateStats x else L).reshapesOk then
        if (if training then L.updateStats x else L).mle then
          some (x.map (bnImage sq
            (if training then L.updateStats x else L).running_mean
            (if training then L.updateStats x else L).running_var
            (if training then L.updateStats x else L).weight_mean
            (if training then L.updateStats x else L).bias_mean))
        else
          stochForward (fun g grp =>
            grp.map (bnImage sq
              (if training then L.updateStats x else L).running_mean
              (if training then L.updateStats x else L).running_var
              (sampleV e (if training then L.updateStats x else L).weight_mean
                (if training then L.updateStats x else L).weight_logvar (epsw g))
              (sampleV e (if training then L.updateStats x else L).bias_mean
                (if training then L.updateStats x else L).bias_logvar (epsb g)))) S x
      else none := by
  unfold BatchNorm2dLayer.forward
  dsimp only
  split
  all_goals
    split
    · split <;> rfl
    · rfl

/-- stochForward fails when the leading dimension is not divisible by
the sample count. -/
theorem stochForward_none (op : ℕ → List α → List β) (S : ℕ) (x : List α)
    (hdvd : ¬ S ∣ x.length) : stochForward op S x = none := by
  unfold stochForward
  rw [if_neg]
  rintro ⟨_, h⟩
  exact hdvd h

end HelperLemmas

/-- Claim C1: for every layer in stochastic mode (mle = false) with the
input leading dimension divisible by the positive sample count S, the
vectorized forward is equivalent to the naive sequential reference:
partition into S contiguous groups of N/S rows in order, draw weight
(and bias when present) per group via mean + exp(0.5 * logvar) * eps
with fresh per-element noise, apply the underlying deterministic
operation per group, and concatenate the group outputs in original
group order (for the Normalization layer, the reference acts on the
state whose running statistics a training-mode call has just
updated, provided its per-channel reshapes go through). -/
theorem claim_C1_stochastic_forward_refines_naive_reference
    (e sq : ℚ → ℚ) (S : ℕ) (hS : 0 < S) :
    (∀ (L : LinearLayer) (epsW : ℕ → Mat) (epsb : ℕ → Vec) (x : Mat),
      L.mle = false → S ∣ x.length →
      LinearLayer.forward e L epsW epsb x S =
        some (LinearLayer.naiveForward e L epsW epsb x S)) ∧
    (∀ (L : Conv2dLayer) (epsW : ℕ → T4) (epsb : ℕ → Vec) (x : T4),
      L.mle = false → S ∣ x.length →
      Conv2dLayer.forward e L epsW epsb x S =
        some (Conv2dLayer.naiveForward e L epsW epsb x S)) ∧
    (∀ (L : ConvT2dLayer) (epsW : ℕ → T4) (epsb : ℕ → Vec) (x : T4),
      L.mle = false → S ∣ x.length →
      ConvT2dLayer.forward e L epsW epsb x S =
        some (ConvT2dLayer.naiveForward e L epsW epsb x S)) ∧
    (∀ (L : BatchNorm2dLayer) (training : Bool) (epsw epsb : ℕ → Vec) (x : T4),
      L.mle = false → S ∣ x.length →
      (if training then L.updateStats x else L).reshapesOk = true →
      (BatchNorm2dLayer.forward e sq L training epsw epsb x S).2 =
        some (BatchNorm2dLayer.naiveForward e sq
          (if training then L.updateStats x else L) epsw epsb x S)) := by
  refine ⟨?_, ?_, ?_, ?_⟩
  · intro L epsW epsb x hmle hdvd
    simp only [LinearLayer.forward, hmle, Bool.false_eq_true, if_false,
      LinearLayer.naiveForward]
    exact stochForward_eq_naive _ S x hS hdvd
  · intro L epsW epsb x hmle hdvd
    simp only [Conv2dLayer.forward, hmle, Bool.false_eq_true, if_false,
      Conv2dLayer.naiveForward]
    exact stochForward_eq_naive _ S x hS hdvd
  · intro L epsW epsb x hmle hdvd
    simp only [ConvT2dLayer.forward, hmle, Bool.false_eq_true, if_false,
      ConvT2dLayer.naiveForward]
    exact stochForward_eq_naive _ S x hS hdvd
  · intro L training epsw epsb x hmle hdvd hresh
    have hmle2 : (if training then L.updateStats x else L).mle = false := by
      cases training <;> simpa [BatchNorm2dLayer.updateStats] using hmle
    simp only [BatchNorm2dLayer.forward, hresh, hmle2, Bool.false_eq_true, if_false,
      if_true, BatchNorm2dLayer.naiveForward]
    exact stochForward_eq_naive _ S x hS hdvd

/-- Witness for claim C1 at a concrete stochastic Dense layer, two rows
split into two sample groups. -/
theorem claim_C1_witness :
    LinearLayer.forward (fun q => q) (LinearLayer.init 1 1 true false (-8) [[1]])
      (fun _ => [[0]]) (fun _ => [0]) [[1], [2]] 2 =
      some (LinearLayer.naiveForward (fun q => q)
        (LinearLayer.init 1 1 true false (-8) [[1]])
        (fun _ => [[0]]) (fun _ => [0]) [[1], [2]] 2) :=
  (claim_C1_stochastic_forward_refines_naive_reference
      (fun q => q) (fun q => q) 2 (by decide)).1
    (LinearLayer.init 1 1 true false (-8) [[1]]) (fun _ => [[0]]) (fun _ => [0])
    [[1], [2]] (by decide) (by decide)

/-- Claim C2: for every layer in stochastic mode, a forward call whose
input leading dimension is not a multiple of the sample count fails
(returns no output): the reshape never silently truncates or
broadcasts the batch. -/
theorem claim_C2_indivisible_batch_fails
    (e sq : ℚ → ℚ) (S : ℕ) :
    (∀ (L : LinearLayer) (epsW : ℕ → Mat) (epsb : ℕ → Vec) (x : Mat),
      L.mle = false → ¬ S ∣ x.length →
      LinearLayer.forward e L epsW epsb x S = none) ∧
    (∀ (L : Conv2dLayer) (epsW : ℕ → T4) (epsb : ℕ → Vec) (x : T4),
      L.mle = false → ¬ S ∣ x.length →
      Conv2dLayer.forward e L epsW epsb x S = none) ∧
    (∀ (L : ConvT2dLayer) (epsW : ℕ → T4) (epsb : ℕ → Vec) (x : T4),
      L.mle = false → ¬ S ∣ x.length →
      ConvT2dLayer.forward e L epsW epsb x S = none) ∧
    (∀ (L : BatchNorm2dLayer) (training : Bool) (epsw epsb : ℕ → Vec) (x : T4),
      L.mle = false → ¬ S ∣ x.length →
      (BatchNorm2dLayer.forward e sq L training epsw epsb x S).2 = none) := by
  refine ⟨?_, ?_, ?_, ?_⟩
  · intro L epsW epsb x hmle hdvd
    simp only [LinearLayer.forward, hmle, Bool.false_eq_true, if_false]
    exact stochForward_none _ S x hdvd
  · intro L epsW epsb x hmle hdvd
    simp only [Conv2dLayer.forward, hmle, Bool.false_eq_true, if_false]
    exact stochForward_none _ S x hdvd
  · intro L epsW epsb x hmle hdvd
    simp only [ConvT2dLayer.forward, hmle, Bool.false_eq_true, if_false]
    exact stochForward_none _ S x hdvd
  · intro L training epsw epsb x hmle hdvd
    have hmle2 : (if training then L.updateStats x else L).mle = false := by
      cases training <;> simpa [BatchNorm2dLayer.updateStats] using hmle
    rw [bnForward_snd]
    by_cases hr : (if training then L.updateStats x else L).reshapesOk = true
    · simp only [hr, hmle2, Bool.false_eq_true, if_true, if_false]
      exact stochForward_none _ S x hdvd
    · simp [hr]

/-- Witness for claim C2 at a concrete stochastic Dense layer: three
rows cannot be split into two sample groups, the call fails. -/
theorem claim_C2_witness :
    LinearLayer.forward (fun q => q) (LinearLayer.init 1 1 true false (-8) [[1]])
      (fun _ => [[0]]) (fun _ => [0]) [[1], [2], [3]] 2 = none :=
  (claim_C2_indivisible_batch_fails (fun q => q) (fun q => q) 2).1
    (LinearLayer.init 1 1 true false (-8) [[1]]) (fun _ => [[0]]) (fun _ => [0])
    [[1], [2], [3]] (by decide) (by decide)

/-- Counterexample to claim C3: a BatchNorm2d layer constructed with
mle = true, called twice with the same input while training is true,
returns two different outputs — the first call moves the running
statistics, and the standardization of the second call reads the moved
values, so the point-estimate forward is not a function of the input
and mean parameters only. -/
theorem claim_C3_counterexample :
    ((BatchNorm2dLayer.init 3 true (-8)).forward (fun q => q) (fun q => q) true
        (fun _ => [0, 0, 0]) (fun _ => [0, 0, 0])
        [[[[0]], [[0]], [[0]]], [[[2]], [[4]], [[6]]]] 10).2 ≠
      (((BatchNorm2dLayer.init 3 true (-8)).forward (fun q => q) (fun q => q) true
          (fun _ => [0, 0, 0]) (fun _ => [0, 0, 0])
          [[[[0]], [[0]], [[0]]], [[[2]], [[4]], [[6]]]] 10).1.forward
        (fun q => q) (fun q => q) true
        (fun _ => [0, 0, 0]) (fun _ => [0, 0, 0])
        [[[[0]], [[0]], [[0]]], [[[2]], [[4]], [[6]]]] 10).2 := by
  with_unfolding_all decide

/-- Claim C3 as amended: for the Dense, Conv and TransposedConv layers
with mle = true, forward is a deterministic function of the input and
the mean parameters only — independent of the noise, the sample count
and the log-variance tensors. For the Normalization layer the same
holds with training = false and log-variance replacements of unchanged
length, with the output additionally reading the (then unchanged)
running statistics; training-mode Normalization calls move the running
statistics, so only consecutive inference-mode calls are guaranteed
identical. -/
theorem claim_C3_amended_mle_deterministic
    (e sq : ℚ → ℚ) (S : ℕ) :
    (∀ (L : LinearLayer) (lv : Mat) (blv : Option Vec)
       (epsW : ℕ → Mat) (epsb : ℕ → Vec) (x : Mat),
      L.mle = true →
      LinearLayer.forward e { L with weight_logvar := lv, bias_logvar := blv }
          epsW epsb x S =
        some (flinear x L.weight_mean L.bias_mean)) ∧
    (∀ (L : Conv2dLayer) (lv : T4) (blv : Option Vec)
       (epsW : ℕ → T4) (epsb : ℕ → Vec) (x : T4),
      L.mle = true →
      Conv2dLayer.forward e { L with weight_logvar := lv, bias_logvar := blv }
          epsW epsb x S =
        some (x.map (conv2dImage L.weight_mean L.bias_mean L.stride L.padding
          L.kernel_size))) ∧
    (∀ (L : ConvT2dLayer) (lv : T4) (blv : Option Vec)
       (epsW : ℕ → T4) (epsb : ℕ → Vec) (x : T4),
      L.mle = true →
      ConvT2dLayer.forward e { L with weight_logvar := lv, bias_logvar := blv }
          epsW epsb x S =
        some (x.map (convT2dImage L.weight_mean L.bias_mean L.stride L.padding
          L.kernel_size L.out_channels))) ∧
    (∀ (L : BatchNorm2dLayer) (lv blv : Vec) (epsw epsb : ℕ → Vec) (x : T4),
      L.mle = true → lv.length = L.weight_logvar.length →
      blv.length = L.bias_logvar.length →
      BatchNorm2dLayer.forward e sq { L with weight_logvar := lv, bias_logvar := blv }
          false epsw epsb x S =
        ({ L with weight_logvar := lv, bias_logvar := blv },
         if L.reshapesOk then
           some (x.map (bnImage sq L.running_mean L.running_var
             L.weight_mean L.bias_mean))
         else none)) := by
  refine ⟨?_, ?_, ?_, ?_⟩
  · intro L lv blv epsW epsb x hmle
    simp [LinearLayer.forward, hmle]
  · intro L lv blv epsW epsb x hmle
    simp [Conv2dLayer.forward, hmle]
  · intro L lv blv epsW epsb x hmle
    simp [ConvT2dLayer.forward, hmle]
  · intro L lv blv epsw epsb x hmle hlv hblv
    have hro : ({ L with weight_logvar := lv, bias_logvar := blv } :
        BatchNorm2dLayer).reshapesOk = L.reshapesOk := by
      rw [Bool.eq_iff_iff, reshapesOk_iff, reshapesOk_iff]
      simp [hlv, hblv]
    by_cases hr : L.reshapesOk = true
    · simp only [BatchNorm2dLayer.forward, Bool.false_eq_true, if_false]
      rw [hro, hr]
      simp [hmle]
    · rw [Bool.not_eq_true] at hr
      simp only [BatchNorm2dLayer.forward, Bool.false_eq_true, if_false]
      rw [hro, hr]
      simp

/-- Witness for the amended claim C3 at a concrete point-estimate Dense
layer: the log-variance tensors, the noise and the sample count are
replaced by arbitrary concrete values without changing the output. -/
theorem claim_C3_witness :
    LinearLayer.forward (fun q => q)
      { LinearLayer.init 1 1 true true (-8) [[2]] with
        weight_logvar := [[5]], bias_logvar := some [7] }
      (fun _ => [[9]]) (fun _ => [9]) [[3]] 4 =
      some (flinear [[3]] (LinearLayer.init 1 1 true true (-8) [[2]]).weight_mean
        (LinearLayer.init 1 1 true true (-8) [[2]]).bias_mean) :=
  (claim_C3_amended_mle_deterministic (fun q => q) (fun q => q) 4).1
    (LinearLayer.init 1 1 true true (-8) [[2]]) [[5]] (some [7])
    (fun _ => [[9]]) (fun _ => [9]) [[3]] (by decide)

/-- Claim C4: a BatchNorm2d forward call with training = true updates
each running statistic to (1 - m) * old + m * batch_stat with momentum
m = 0.1, where the batch mean is the per-channel mean over all
non-channel dimensions and the batch variance is the unbiased
(count - 1 denominator) variance over the same elements; the update
happens on every training-mode call regardless of the mle flag. -/
theorem claim_C4_running_stats_update_law
    (e sq : ℚ → ℚ) (L : BatchNorm2dLayer) (epsw epsb : ℕ → Vec) (x : T4) (S : ℕ)
    (_hWF : L.WF) (_hch : chCount x = L.num_features) :
    (BatchNorm2dLayer.forward e sq L true epsw epsb x S).1.running_mean =
      List.zipWith (fun r b => (1 - 1 / 10) * r + (1 / 10) * b) L.running_mean
        ((List.range (chCount x)).map (fun c =>
          (channelElems x c).sum / ((channelElems x c).length : ℚ))) ∧
    (BatchNorm2dLayer.forward e sq L true epsw epsb x S).1.running_var =
      List.zipWith (fun r b => (1 - 1 / 10) * r + (1 / 10) * b) L.running_var
        ((List.range (chCount x)).map (fun c =>
          ((channelElems x c).map (fun v =>
            (v - (channelElems x c).sum / ((channelElems x c).length : ℚ)) ^ 2)).sum /
            (((channelElems x c).length : ℚ) - 1))) := by
  have hm : chMeanVec x = (List.range (chCount x)).map (fun c =>
      (channelElems x c).sum / ((channelElems x c).length : ℚ)) := by
    rw [chMeanVec]
    apply List.map_congr_left
    intro c _
    simp only [chMean]
  have hv : chVarVec x = (List.range (chCount x)).map (fun c =>
      ((channelElems x c).map (fun v =>
        (v - (channelElems x c).sum / ((channelElems x c).length : ℚ)) ^ 2)).sum /
        (((channelElems x c).length : ℚ) - 1)) := by
    rw [chVarVec]
    apply List.map_congr_left
    intro c _
    simp only [chVar, chMean]
  rw [bnForward_fst, if_pos rfl]
  constructor
  · show List.zipWith (fun r b => (1 - bnMomentum) * r + bnMomentum * b)
      L.running_mean (chMeanVec x) = _
    rw [hm]
    unfold bnMomentum
    rfl
  · show List.zipWith (fun r b => (1 - bnMomentum) * r + bnMomentum * b)
      L.running_var (chVarVec x) = _
    rw [hv]
    unfold bnMomentum
    rfl

/-- Witness for claim C4: a freshly constructed three-channel layer on
a batch of two one-by-two images per channel (four elements per
channel, so the unbiased variance divides by three). -/
theorem claim_C4_witness :
    ((BatchNorm2dLayer.init 3 false (-8)).forward (fun q => q) (fun q => q) true
        (fun _ => [0, 0, 0]) (fun _ => [0, 0, 0])
        [[[[1, 3]], [[0, 2]], [[5, 7]]], [[[5, 7]], [[4, 6]], [[1, 3]]]] 2).1.running_mean =
      List.zipWith (fun r b => (1 - 1 / 10) * r + (1 / 10) * b)
        (BatchNorm2dLayer.init 3 false (-8)).running_mean
        ((List.range (chCount [[[[1, 3]], [[0, 2]], [[5, 7]]],
            [[[5, 7]], [[4, 6]], [[1, 3]]]])).map (fun c =>
          (channelElems [[[[1, 3]], [[0, 2]], [[5, 7]]],
            [[[5, 7]], [[4, 6]], [[1, 3]]]] c).sum /
          ((channelElems [[[[1, 3]], [[0, 2]], [[5, 7]]],
            [[[5, 7]], [[4, 6]], [[1, 3]]]] c).length : ℚ))) :=
  (claim_C4_running_stats_update_law (fun q => q) (fun q => q)
    (BatchNorm2dLayer.init 3 false (-8)) (fun _ => [0, 0, 0]) (fun _ => [0, 0, 0])
    [[[[1, 3]], [[0, 2]], [[5, 7]]], [[[5, 7]], [[4, 6]], [[1, 3]]]] 2
    (by decide) (by decide)).1

/-- Claim C5: a BatchNorm2d forward call with training = true equals
the running-statistics update followed by an inference-mode call on the
already-updated state: the standardization inside the call reads the
statistics updated by that same call, in both point-estimate and
stochastic modes. -/
theorem claim_C5_read_after_write_within_call
    (e sq : ℚ → ℚ) (L : BatchNorm2dLayer) (epsw epsb : ℕ → Vec) (x : T4) (S : ℕ) :
    BatchNorm2dLayer.forward e sq L true epsw epsb x S =
      (L.updateStats x,
       (BatchNorm2dLayer.forward e sq (L.updateStats x) false epsw epsb x S).2) := by
  rw [Prod.ext_iff]
  refine ⟨?_, ?_⟩
  · rw [bnForward_fst, if_pos rfl]
  · rw [bnForward_snd, bnForward_snd]
    simp

/-- Sequence of BatchNorm2d forward calls in inference mode, each call
threading the layer state to the next. -/
def bnEvalChain (e sq : ℚ → ℚ) (epsw epsb : ℕ → Vec) (S : ℕ)
    (L : BatchNorm2dLayer) (xs : List T4) : BatchNorm2dLayer :=
  xs.foldl (fun st x => (BatchNorm2dLayer.forward e sq st false epsw epsb x S).1) L

/-- Claim C6: any number of successive BatchNorm2d forward calls with
training = false leaves the layer state — in particular running_mean
and running_var — unchanged, in both point-estimate and stochastic
modes. -/
theorem claim_C6_inference_never_moves_running_stats
    (e sq : ℚ → ℚ) (epsw epsb : ℕ → Vec) (S : ℕ)
    (L : BatchNorm2dLayer) (xs : List T4) :
    bnEvalChain e sq epsw epsb S L xs = L := by
  induction xs generalizing L with
  | nil => rfl
  | cons x xs ih =>
    have h1 : (BatchNorm2dLayer.forward e sq L false epsw epsb x S).1 = L := by
      rw [bnForward_fst]
      rfl
    show List.foldl _ _ (x :: xs) = L
    rw [List.foldl_cons, h1]
    exact ih L

/-- Claim C7: the per-channel reshape of BatchNorm2d.forward hardcodes
3 channels — on a well-formed layer state whose vectors have the
configured feature count, every one of the six reshapes succeeds when
num_features = 3, and when num_features differs from 3 every forward
call returns no output (failing at that reshape) in every mode and
training state. -/
theorem claim_C7_reshape_hardcodes_three_channels
    (e sq : ℚ → ℚ) (L : BatchNorm2dLayer) (hWF : L.WF) :
    (L.num_features = 3 → L.reshapesOk = true) ∧
    (L.num_features ≠ 3 → ∀ (training : Bool) (epsw epsb : ℕ → Vec) (x : T4) (S : ℕ),
      (BatchNorm2dLayer.forward e sq L training epsw epsb x S).2 = none) := by
  obtain ⟨h1, h2, h3, h4, h5, h6⟩ := hWF
  constructor
  · intro hnf
    rw [reshapesOk_iff]
    omega
  · intro hnf training epsw epsb x S
    rw [bnForward_snd]
    have hwm : (if training then L.updateStats x else L).weight_mean = L.weight_mean := by
      cases training <;> rfl
    have hro : ¬ ((if training then L.updateStats x else L).reshapesOk = true) := by
      rw [reshapesOk_iff]
      rintro ⟨-, -, hwm3, -, -, -⟩
      rw [hwm] at hwm3
      omega
    rw [Bool.not_eq_true] at hro
    simp [hro]

/-- Witness for claim C7: a freshly constructed three-channel instance
passes all six reshapes, and a freshly constructed four-channel
instance returns no output from a forward call. -/
theorem claim_C7_witness :
    (BatchNorm2dLayer.init 3 false (-8)).reshapesOk = true ∧
    ((BatchNorm2dLayer.init 4 false (-8)).forward (fun q => q) (fun q => q) false
      (fun _ => []) (fun _ => []) [] 1).2 = none :=
  ⟨(claim_C7_reshape_hardcodes_three_channels (fun q => q) (fun q => q)
      (BatchNorm2dLayer.init 3 false (-8)) (by decide)).1 (by decide),
   (claim_C7_reshape_hardcodes_three_channels (fun q => q) (fun q => q)
      (BatchNorm2dLayer.init 4 false (-8)) (by decide)).2 (by decide)
      false (fun _ => []) (fun _ => []) [] 1⟩

/-- Counterexample to claim C8: a BatchNorm2d forward call in training
mode with a batch of two rows and sample count 10 fails (the leading
dimension is not divisible by the sample count, so no output is
produced), yet the failing call has already moved running_mean — the
observable state is changed by a failing call. -/
theorem claim_C8_counterexample :
    ((BatchNorm2dLayer.init 3 false (-8)).forward (fun q => q) (fun q => q) true
        (fun _ => [0, 0, 0]) (fun _ => [0, 0, 0])
        [[[[2]], [[4]], [[6]]], [[[0]], [[0]], [[0]]]] 10).2 = none ∧
    ((BatchNorm2dLayer.init 3 false (-8)).forward (fun q => q) (fun q => q) true
        (fun _ => [0, 0, 0]) (fun _ => [0, 0, 0])
        [[[[2]], [[4]], [[6]]], [[[0]], [[0]], [[0]]]] 10).1.running_mean ≠
      (BatchNorm2dLayer.init 3 false (-8)).running_mean := by
  with_unfolding_all decide

/-- Claim C8 as amended: the state effect of a BatchNorm2d forward call
is exactly the training-gated running-statistics update and nothing
else — an inference-mode call never changes the state even when it
fails, while a training-mode call applies the update before any failure
point, so a failing training-mode call still leaves the running
statistics updated (the other three layers carry no mutable state). -/
theorem claim_C8_amended_failing_call_state
    (e sq : ℚ → ℚ) (L : BatchNorm2dLayer) (epsw epsb : ℕ → Vec) (x : T4) (S : ℕ) :
    (BatchNorm2dLayer.forward e sq L false epsw epsb x S).1 = L ∧
    (BatchNorm2dLayer.forward e sq L true epsw epsb x S).1 = L.updateStats x := by
  constructor <;> rw [bnForward_fst] <;> rfl

/-- Length preservation through the shared stochastic combinator. -/
theorem stochForward_length (op : ℕ → List α → List β) (S : ℕ) (x : List α) (y : List β)
    (hop : ∀ g grp, (op g grp).length = grp.length)
    (h : stochForward op S x = some y) : y.length = x.length := by
  unfold stochForward at h
  split at h
  · rename_i hc
    injection h with h
    subst h
    exact vmapIdx_chunkS_flatten_length S _ x op hop (Nat.mul_div_cancel' hc.2).symm
  · cases h

/-- Claim C9: whenever a forward call of any layer in any mode
succeeds, the output's leading-dimension size equals the input's
leading-dimension size. -/
theorem claim_C9_output_leading_dimension_preserved
    (e sq : ℚ → ℚ) (S : ℕ) :
    (∀ (L : LinearLayer) (epsW : ℕ → Mat) (epsb : ℕ → Vec) (x y : Mat),
      LinearLayer.forward e L epsW epsb x S = some y → y.length = x.length) ∧
    (∀ (L : Conv2dLayer) (epsW : ℕ → T4) (epsb : ℕ → Vec) (x y : T4),
      Conv2dLayer.forward e L epsW epsb x S = some y → y.length = x.length) ∧
    (∀ (L : ConvT2dLayer) (epsW : ℕ → T4) (epsb : ℕ → Vec) (x y : T4),
      ConvT2dLayer.forward e L epsW epsb x S = some y → y.length = x.length) ∧
    (∀ (L : BatchNorm2dLayer) (training : Bool) (epsw epsb : ℕ → Vec) (x y : T4),
      (BatchNorm2dLayer.forward e sq L training epsw epsb x S).2 = some y →
      y.length = x.length) := by
  refine ⟨?_, ?_, ?_, ?_⟩
  · intro L epsW epsb x y h
    unfold LinearLayer.forward at h
    split at h
    · injection h with h
      subst h
      simp [flinear]
    · exact stochForward_length _ S x y (fun g grp => by simp [flinear]) h
  · intro L epsW epsb x y h
    unfold Conv2dLayer.forward at h
    split at h
    · injection h with h
      subst h
      simp
    · exact stochForward_length _ S x y (fun g grp => by simp) h
  · intro L epsW epsb x y h
    unfold ConvT2dLayer.forward at h
    split at h
    · injection h with h
      subst h
      simp
    · exact stochForward_length _ S x y (fun g grp => by simp) h
  · intro L training epsw epsb x y h
    rw [bnForward_snd] at h
    split at h
    all_goals
      split at h
      · split at h
        · injection h with h
          subst h
          simp
        · exact stochForward_length _ S x y (fun g grp => by simp) h
      · cases h

/-- Witness for claim C9 at a concrete point-estimate Dense layer with
weight 2: the input rows and the (different-valued) output rows agree
in number. -/
theorem claim_C9_witness :
    ([[(2 : ℚ)], [(4 : ℚ)]] : Mat).length = ([[(1 : ℚ)], [(2 : ℚ)]] : Mat).length :=
  (claim_C9_output_leading_dimension_preserved (fun q => q) (fun q => q) 10).1
    (LinearLayer.init 1 1 true true (-8) [[2]]) (fun _ => [[0]]) (fun _ => [0])
    [[1], [2]] [[2], [4]] (by with_unfolding_all decide)

/-- Counterexample to claim C10: not every layer's construction
parameters include a bias-enable flag — BatchNorm2d.__init__ takes only
the feature count, the mle flag and the log-variance initializer. -/
theorem claim_C10_counterexample :
    ¬ ∀ k : LayerKind, hasBiasFlag k = true := by
  intro h
  exact absurd (h LayerKind.norm) (by decide)

/-- Claim C10 as amended: the Dense, Conv and TransposedConv
constructions include a bias-enable flag, and their bias mean and bias
log-variance are present together when the flag is set and absent
together when it is cleared, never one without the other; the
Normalization layer's construction has no bias-enable flag and both its
bias tensors are always present (with the configured feature count). -/
theorem claim_C10_amended_bias_pairing
    : (∀ (inF outF : ℕ) (bias mle : Bool) (lv : ℚ) (w0 : Mat),
      (LinearLayer.init inF outF bias mle lv w0).bias_mean.isSome = bias ∧
      (LinearLayer.init inF outF bias mle lv w0).bias_logvar.isSome = bias) ∧
    (∀ (ic oc ks st pd : ℕ) (bias mle : Bool) (lv : ℚ) (w0 : T4),
      (Conv2dLayer.init ic oc ks st pd bias mle lv w0).bias_mean.isSome = bias ∧
      (Conv2dLayer.init ic oc ks st pd bias mle lv w0).bias_logvar.isSome = bias) ∧
    (∀ (ic oc ks st pd : ℕ) (bias mle : Bool) (lv : ℚ) (w0 : T4),
      (ConvT2dLayer.init ic oc ks st pd bias mle lv w0).bias_mean.isSome = bias ∧
      (ConvT2dLayer.init ic oc ks st pd bias mle lv w0).bias_logvar.isSome = bias) ∧
    (∀ (nf : ℕ) (mle : Bool) (lv : ℚ),
      (BatchNorm2dLayer.init nf mle lv).bias_mean.length = nf ∧
      (BatchNorm2dLayer.init nf mle lv).bias_logvar.length = nf) ∧
    hasBiasFlag LayerKind.dense = true ∧
    hasBiasFlag LayerKind.conv = true ∧
    hasBiasFlag LayerKind.transposedConv = true ∧
    hasBiasFlag LayerKind.norm = false := by
  refine ⟨?_, ?_, ?_, ?_, rfl, rfl, rfl, rfl⟩
  · intro inF outF bias mle lv w0
    cases bias <;> simp [LinearLayer.init]
  · intro ic oc ks st pd bias mle lv w0
    cases bias <;> simp [Conv2dLayer.init]
  · intro ic oc ks st pd bias mle lv w0
    cases bias <;> simp [ConvT2dLayer.init]
  · intro nf mle lv
    simp [BatchNorm2dLayer.init]
